import Mathlib

/-!
Shallow embedding of the TennisPulse analytics core
(`src/TennisPulse/Analytics/tennis_analyzer.cpp`, namespace `tennis`).

Modelling conventions:
* C++ `double` values are modelled as `ℚ` (all inputs and every arithmetic
  operation of the source except `std::sqrt` are exact rational operations);
  `std::sqrt` is modelled by `Real.sqrt` on the cast to `ℝ`.
* The IEEE special value `+infinity`, which `calculateWorkRestRatio` can
  return, is modelled by the dedicated constructor `WorkRest.posInf`.
* The IEEE `NaN` that `analyze` produces for `averageIntensity` on empty
  input (`0.0 / 0.0`) is modelled by `Option.none`; a finite quotient is
  `some q`.
* `throw std::invalid_argument` is modelled by `Except.error` carrying a
  `VErr` value that records which of the two documented error kinds the
  message text denotes (size mismatch, or range error with the offending
  index).
* C++ `uint8_t` intensities are modelled as `ℕ`; in
  `normalizeIntensity` the subtraction `intensity - MIN_INTENSITY` happens
  after integer promotion in C++, so it is modelled by `ℤ` subtraction.
-/

namespace Tennis

/-- Minimum allowed duration, `MIN_DURATION` in the source. -/
def MIN_DURATION : ℚ := 0

/-- Maximum allowed duration (24 hours), `MAX_DURATION` in the source. -/
def MAX_DURATION : ℚ := 86400

/-- Minimum allowed intensity, `MIN_INTENSITY` in the source. -/
def MIN_INTENSITY : ℕ := 1

/-- Maximum allowed intensity, `MAX_INTENSITY` in the source. -/
def MAX_INTENSITY : ℕ := 5

/-- Floating-point tolerance, `EPSILON = 1e-9` in the source. -/
def EPSILON : ℚ := 1 / 1000000000

/-- Error kinds thrown by the analyzer via `std::invalid_argument`.
`sizeMismatch` stands for the two length-mismatch messages (the
durations/intensities one in `validateInputs` and the rest-durations one in
`calculateWorkRestRatio`); `durationRange i` and `intensityRange i` stand
for the out-of-range messages of `validateInputs`, which embed the
offending index `i` in the message text. -/
inductive VErr where
  | sizeMismatch : VErr
  | durationRange : ℕ → VErr
  | intensityRange : ℕ → VErr
deriving DecidableEq, Repr

/-- Index of the first duration outside `[MIN_DURATION, MAX_DURATION]`,
counting from `k`; models the first `for` loop of
`TennisAnalyzer::validateInputs`. -/
def firstBadDurationIdx : List ℚ → ℕ → Option ℕ
  | [], _ => none
  | d :: ds, k =>
    if d < MIN_DURATION ∨ MAX_DURATION < d then some k
    else firstBadDurationIdx ds (k + 1)

/-- Index of the first intensity outside `[MIN_INTENSITY, MAX_INTENSITY]`,
counting from `k`; models the second `for` loop of
`TennisAnalyzer::validateInputs`. -/
def firstBadIntensityIdx : List ℕ → ℕ → Option ℕ
  | [], _ => none
  | n :: ns, k =>
    if n < MIN_INTENSITY ∨ MAX_INTENSITY < n then some k
    else firstBadIntensityIdx ns (k + 1)

/-- Model of `TennisAnalyzer::validateInputs`: size check first, then the
duration scan, then the intensity scan. -/
def validateInputs (durations : List ℚ) (intensities : List ℕ) :
    Except VErr Unit :=
  if durations.length ≠ intensities.length then .error .sizeMismatch
  else
    match firstBadDurationIdx durations 0 with
    | some k => .error (.durationRange k)
    | none =>
      match firstBadIntensityIdx intensities 0 with
      | some k => .error (.intensityRange k)
      | none => .ok ()

/-- Model of `TennisAnalyzer::calculateTotalActiveTime`. -/
def calculateTotalActiveTime (durations : List ℚ) : ℚ :=
  if durations = [] then 0 else durations.sum

/-- Value returned by `calculateWorkRestRatio`: a finite `double`, or the
IEEE `+infinity` that the source returns when total rest is below
`EPSILON`. -/
inductive WorkRest where
  | fin : ℚ → WorkRest
  | posInf : WorkRest
deriving DecidableEq, Repr

/-- Model of `TennisAnalyzer::calculateWorkRestRatio`: empty durations
return `0.0` at once (before any size check); an empty rest vector makes
total rest equal total work; a non-empty rest vector must have length
`durations.length` or `gapSize` (which is `durations.length - 1` when
`durations.length > 1`, else `0`) or the function throws; total rest below
`EPSILON` yields `+infinity`, otherwise the finite quotient. -/
def calculateWorkRestRatio (durations restDurations : List ℚ) :
    Except VErr WorkRest :=
  if durations = [] then .ok (.fin 0)
  else
    let totalWork := calculateTotalActiveTime durations
    let totalRestE : Except VErr ℚ :=
      if restDurations = [] then .ok totalWork
      else
        let expectedSize := durations.length
        let gapSize := if 1 < durations.length then durations.length - 1 else 0
        if restDurations.length ≠ expectedSize ∧ restDurations.length ≠ gapSize
        then .error .sizeMismatch
        else .ok restDurations.sum
    match totalRestE with
    | .error e => .error e
    | .ok totalRest =>
      if totalRest < EPSILON then .ok .posInf
      else .ok (.fin (totalWork / totalRest))

/-- Model of `TennisAnalyzer::mean`. -/
def mean (values : List ℚ) : ℚ :=
  if values = [] then 0 else values.sum / (values.length : ℚ)

/-- Model of `TennisAnalyzer::standardDeviation`: `0.0` below two values,
else the square root of the sum of squared deviations divided by `n - 1`
(sample variance, Bessel correction). -/
noncomputable def standardDeviation (values : List ℚ) : ℝ :=
  if values.length < 2 then 0
  else
    let m := mean values
    let sumSquaredDiff := (values.map (fun v => (v - m) * (v - m))).sum
    let variance := sumSquaredDiff / ((values.length : ℚ) - 1)
    Real.sqrt (variance : ℝ)

/-- Model of `TennisAnalyzer::coefficientOfVariation`: `0.0` on empty input
or when the mean is within `EPSILON` of zero, else standard deviation over
mean. -/
noncomputable def coefficientOfVariation (values : List ℚ) : ℝ :=
  if values = [] then 0
  else
    let m := mean values
    if |m| < EPSILON then 0
    else standardDeviation values / (m : ℝ)

/-- Model of `TennisAnalyzer::calculateConsistencyScore`: `1.0` below two
sets, else the 60/40 weighted combination of the inverse-CV consistency of
durations and of intensities (converted to doubles), clamped to `[0, 1]`
by `std::max(0.0, std::min(1.0, consistency))`. -/
noncomputable def calculateConsistencyScore (durations : List ℚ)
    (intensities : List ℕ) : ℝ :=
  if durations.length < 2 then 1
  else
    let durationCV := coefficientOfVariation durations
    let durationConsistency := 1 / (1 + durationCV)
    let intensityCV := coefficientOfVariation (intensities.map (fun n => (n : ℚ)))
    let intensityConsistency := 1 / (1 + intensityCV)
    let consistency := 0.6 * durationConsistency + 0.4 * intensityConsistency
    max 0 (min 1 consistency)

/-- Model of `TennisAnalyzer::normalizeIntensity`. In C++ the operands of
`intensity - MIN_INTENSITY` are promoted to `int` before subtracting, so
the subtraction is over `ℤ` (for `intensity = 0` it yields `-1`, not a
wrapped byte). -/
def normalizeIntensity (intensity : ℕ) : ℚ :=
  (((intensity : ℤ) - (MIN_INTENSITY : ℤ)) : ℚ) /
    (((MAX_INTENSITY : ℤ) - (MIN_INTENSITY : ℤ)) : ℚ)

/-- Model of `TennisAnalyzer::calculateTrainingDensityScore`. The volume
loop indexes `intensities[i]` for `i` below `durations.size()`, which is
modelled by `zip` (the source behaviour is undefined when `intensities` is
shorter, a case excluded by every validated call). The average-intensity
division uses `intensities.size()`; when `intensities` is empty while
`durations` is not, C++ produces `NaN` there while `ℚ` division by zero
yields `0` — every claim about this function carries the validation
hypothesis, under which that case cannot arise. -/
def calculateTrainingDensityScore (durations : List ℚ)
    (intensities : List ℕ) : ℚ :=
  if durations = [] then 0
  else
    let avgIntensity :=
      (intensities.map normalizeIntensity).sum / (intensities.length : ℚ)
    let totalWorkVolume :=
      ((durations.zip intensities).map
        (fun p => p.1 * normalizeIntensity p.2)).sum
    let avgDuration := mean durations
    let maxDuration : ℚ := 3600
    let volumeComponent :=
      min 1 (totalWorkVolume / (maxDuration * (durations.length : ℚ)))
    let durationComponent : ℚ :=
      if avgDuration < 30 then avgDuration / 30
      else if 1800 < avgDuration then 1800 / avgDuration
      else 1
    let density :=
      0.4 * avgIntensity + 0.4 * volumeComponent + 0.2 * durationComponent
    max 0 (min 1 density)

/-- Model of the C++ `AnalysisResult` record. `averageIntensity` is an
`Option` because the source computes `intensitySum / size` even when
`size = 0`, producing IEEE `NaN` (modelled `none`). -/
structure AnalysisResult where
  totalActiveTime : ℚ
  workRestRatio : WorkRest
  consistencyScore : ℝ
  trainingDensityScore : ℚ
  averageIntensity : Option ℚ
  totalWorkVolume : ℚ
  totalSets : ℕ

/-- Model of `TennisAnalyzer::analyze`: validate first (propagating its
exception), then compute the metrics; `calculateWorkRestRatio` is the only
metric that can itself throw, and its exception propagates out of
`analyze`. The work-volume loop indexes `intensities[i]` for `i` below
`durations.size()`, modelled by `zip` (lengths are equal after
validation). -/
noncomputable def analyze (durations : List ℚ) (intensities : List ℕ)
    (restDurations : List ℚ) : Except VErr AnalysisResult :=
  match validateInputs durations intensities with
  | .error e => .error e
  | .ok _ =>
    match calculateWorkRestRatio durations restDurations with
    | .error e => .error e
    | .ok wr =>
      .ok
        { totalActiveTime := calculateTotalActiveTime durations
          workRestRatio := wr
          consistencyScore := calculateConsistencyScore durations intensities
          trainingDensityScore :=
            calculateTrainingDensityScore durations intensities
          averageIntensity :=
            if intensities = [] then none
            else some ((intensities.map (fun n => (n : ℚ))).sum /
              (intensities.length : ℚ))
          totalWorkVolume :=
            ((durations.zip intensities).map (fun p => p.1 * (p.2 : ℚ))).sum
          totalSets := durations.length }

/-- Validity predicate of the spec: equal lengths, durations in
`[0, 86400]`, intensities in `[1, 5]`. -/
def ValidInput (durations : List ℚ) (intensities : List ℕ) : Prop :=
  durations.length = intensities.length ∧
  (∀ d ∈ durations, MIN_DURATION ≤ d ∧ d ≤ MAX_DURATION) ∧
  (∀ n ∈ intensities, MIN_INTENSITY ≤ n ∧ n ≤ MAX_INTENSITY)

instance (durations : List ℚ) (intensities : List ℕ) :
    Decidable (ValidInput durations intensities) := by
  unfold ValidInput
  infer_instance

/-- Modelled from the spec: the population standard deviation (denominator
`n`, no Bessel correction), stated only to be compared against the source
function `standardDeviation`, which the spec says must differ from it. -/
noncomputable def populationStdDev (values : List ℚ) : ℝ :=
  Real.sqrt
    (((values.map (fun v => (v - mean values) * (v - mean values))).sum /
      (values.length : ℚ) : ℚ) : ℝ)

/-- Concrete analysis result of the session with one 300-second set of
intensity 3, used to instantiate theorems about `analyze`. -/
noncomputable def sampleResult : AnalysisResult where
  totalActiveTime := 300
  workRestRatio := WorkRest.fin 1
  consistencyScore := calculateConsistencyScore [300] [3]
  trainingDensityScore := calculateTrainingDensityScore [300] [3]
  averageIntensity := some 3
  totalWorkVolume := 900
  totalSets := 1

theorem calculateTotalActiveTime_eq_sum (d : List ℚ) :
    calculateTotalActiveTime d = d.sum := by
  unfold calculateTotalActiveTime
  split
  · next h => simp [h]
  · rfl

theorem gap_condition (d r : List ℚ) (hd : d ≠ []) (hr : r ≠ [])
    (hlen : r.length = d.length ∨ r.length = d.length - 1) :
    ¬(r.length ≠ d.length ∧
      r.length ≠ (if 1 < d.length then d.length - 1 else 0)) := by
  have hd1 : 1 ≤ d.length := List.length_pos.mpr hd
  have hr1 : 1 ≤ r.length := List.length_pos.mpr hr
  rintro ⟨h1, h2⟩
  rcases hlen with h | h
  · exact h1 h
  · by_cases hc : 1 < d.length
    · rw [if_pos hc] at h2; exact h2 h
    · omega

theorem workRestRatio_accepted (d r : List ℚ) (hd : d ≠ []) (hr : r ≠ [])
    (hlen : r.length = d.length ∨ r.length = d.length - 1) :
    calculateWorkRestRatio d r =
      if r.sum < EPSILON then .ok .posInf
      else .ok (.fin (d.sum / r.sum)) := by
  unfold calculateWorkRestRatio
  rw [if_neg hd]
  simp only [if_neg hr, if_neg (gap_condition d r hd hr hlen),
    calculateTotalActiveTime_eq_sum]

theorem workRestRatio_no_rest (d : List ℚ) (hd : d ≠ []) :
    calculateWorkRestRatio d [] =
      if d.sum < EPSILON then .ok .posInf
      else .ok (.fin (d.sum / d.sum)) := by
  unfold calculateWorkRestRatio
  rw [if_neg hd]
  simp [calculateTotalActiveTime_eq_sum]

/-- Claim C1: for every input passing validation,
`calculateConsistencyScore` and `calculateTrainingDensityScore` return a
value in `[0, 1]` (both end every non-degenerate branch with the clamp
`max 0 (min 1 _)`, and the degenerate branches return `1` and `0`). -/
theorem scores_in_unit_interval (d : List ℚ) (i : List ℕ)
    (h : ValidInput d i) :
    (0 ≤ calculateConsistencyScore d i ∧
      calculateConsistencyScore d i ≤ 1) ∧
    (0 ≤ calculateTrainingDensityScore d i ∧
      calculateTrainingDensityScore d i ≤ 1) := by
  refine ⟨?_, ?_⟩
  · unfold calculateConsistencyScore
    split
    · exact ⟨zero_le_one, le_refl 1⟩
    · exact ⟨le_max_left 0 _, max_le zero_le_one (min_le_left 1 _)⟩
  · unfold calculateTrainingDensityScore
    split
    · exact ⟨le_refl 0, zero_le_one⟩
    · exact ⟨le_max_left 0 _, max_le zero_le_one (min_le_left 1 _)⟩

/-- Witness for C1 at the valid session `[300, 300]`, `[3, 3]`. -/
theorem scores_in_unit_interval_witness :
    (0 ≤ calculateConsistencyScore [300, 300] [3, 3] ∧
      calculateConsistencyScore [300, 300] [3, 3] ≤ 1) ∧
    (0 ≤ calculateTrainingDensityScore [300, 300] [3, 3] ∧
      calculateTrainingDensityScore [300, 300] [3, 3] ≤ 1) :=
  scores_in_unit_interval [300, 300] [3, 3]
    (by norm_num [ValidInput, MIN_DURATION, MAX_DURATION,
      MIN_INTENSITY, MAX_INTENSITY])

/-- Claim C6: `calculateConsistencyScore` returns `1` when `durations` has
fewer than two elements, and otherwise the 60/40 weighted combination of
the inverse-CV consistencies of durations and intensities, clamped to
`[0, 1]`. -/
theorem consistencyScore_formula (d : List ℚ) (i : List ℕ) :
    (d.length < 2 → calculateConsistencyScore d i = 1) ∧
    (2 ≤ d.length → calculateConsistencyScore d i =
      max 0 (min 1
        (0.6 * (1 / (1 + coefficientOfVariation d)) +
         0.4 * (1 / (1 + coefficientOfVariation
           (i.map (fun n => (n : ℚ)))))))) := by
  constructor
  · intro h
    unfold calculateConsistencyScore
    rw [if_pos h]
  · intro h
    unfold calculateConsistencyScore
    rw [if_neg (by omega)]

/-- Witness for C6 at the single-set session `[300]`, `[3]`. -/
theorem consistencyScore_formula_witness :
    calculateConsistencyScore [300] [3] = 1 :=
  (consistencyScore_formula [300] [3]).1 (by norm_num)

/-- Claim C7: `standardDeviation` returns `0` below two values and
otherwise the sample standard deviation with denominator `n - 1`; at
`[0, 2]` it yields `Real.sqrt 2` while the population formula
(denominator `n`) yields `1`, so the two disagree. -/
theorem standardDeviation_sample (v : List ℚ) :
    (v.length < 2 → standardDeviation v = 0) ∧
    (2 ≤ v.length → standardDeviation v =
      Real.sqrt
        ((((v.map (fun x => (x - mean v) * (x - mean v))).sum /
          ((v.length : ℚ) - 1)) : ℚ) : ℝ)) ∧
    (standardDeviation [0, 2] = Real.sqrt 2 ∧
      populationStdDev [0, 2] = 1 ∧
      standardDeviation [0, 2] ≠ populationStdDev [0, 2]) := by
  have hm : mean ([0, 2] : List ℚ) = 1 := by
    norm_num [mean, List.cons_ne_nil]
  have hsd : standardDeviation [0, 2] = Real.sqrt 2 := by
    unfold standardDeviation
    rw [if_neg (by norm_num)]
    norm_num [hm]
  have hpop : populationStdDev [0, 2] = 1 := by
    unfold populationStdDev
    norm_num [hm, Real.sqrt_one]
  refine ⟨?_, ?_, hsd, hpop, ?_⟩
  · intro h
    unfold standardDeviation
    rw [if_pos h]
  · intro h
    unfold standardDeviation
    rw [if_neg (by omega)]
  · rw [hsd, hpop]
    simp only [ne_eq, Real.sqrt_eq_one]
    norm_num

/-- Witness for C7 at the singleton list `[5]`. -/
theorem standardDeviation_sample_witness :
    standardDeviation [5] = 0 :=
  (standardDeviation_sample [5]).1 (by norm_num)

/-- Counterexample to C3 as stated: with empty `durations` and the
non-empty `restDurations = [5]` of unaccepted length, the source returns
`0.0` (the empty-durations early return precedes the size check) instead
of failing with `SizeMismatchError`. -/
theorem workRestRatio_empty_durations_ok :
    calculateWorkRestRatio [] [5] = .ok (.fin 0) ∧
    calculateWorkRestRatio [] [5] ≠ .error .sizeMismatch := by
  constructor
  · rfl
  · intro h
    simp [calculateWorkRestRatio] at h

/-- Claim C3 as amended: for every NON-EMPTY `durations` and every
non-empty `restDurations` whose length is neither `durations.length` nor
`durations.length - 1`, `calculateWorkRestRatio` fails with
`SizeMismatchError` (for empty `durations` the function instead returns
`0.0` before reaching the size check). -/
theorem workRestRatio_size_mismatch (d r : List ℚ) (hd : d ≠ [])
    (hr : r ≠ []) (h1 : r.length ≠ d.length) (h2 : r.length ≠ d.length - 1) :
    calculateWorkRestRatio d r = .error .sizeMismatch := by
  have hgap : r.length ≠ (if 1 < d.length then d.length - 1 else 0) := by
    have hr1 : 1 ≤ r.length := List.length_pos.mpr hr
    split
    · exact h2
    · omega
  unfold calculateWorkRestRatio
  rw [if_neg hd]
  simp only [if_neg hr, if_pos (And.intro h1 hgap)]

/-- Witness for the amended C3 at `durations = [300]`,
`restDurations = [1, 2]`. -/
theorem workRestRatio_size_mismatch_witness :
    calculateWorkRestRatio [300] [1, 2] = .error .sizeMismatch :=
  workRestRatio_size_mismatch [300] [1, 2] (by simp) (by simp)
    (by simp) (by simp)

/-- Claim C5: for non-empty `durations` and accepted `restDurations`, the
ratio is `+infinity` when the total rest (total work when `restDurations`
is empty) is below `EPSILON = 1e-9`, and otherwise the quotient of total
work by total rest; in particular `[300, 300]` with no rest gives `1`. -/
theorem workRestRatio_values :
    (∀ d r : List ℚ, d ≠ [] →
      (r = [] ∨ r.length = d.length ∨ r.length = d.length - 1) →
      ((if r = [] then d.sum else r.sum) < EPSILON →
        calculateWorkRestRatio d r = .ok .posInf) ∧
      (EPSILON ≤ (if r = [] then d.sum else r.sum) →
        calculateWorkRestRatio d r =
          .ok (.fin (d.sum / (if r = [] then d.sum else r.sum))))) ∧
    calculateWorkRestRatio [300, 300] [] = .ok (.fin 1) := by
  constructor
  · intro d r hd hacc
    by_cases hr : r = []
    · subst hr
      rw [workRestRatio_no_rest d hd]
      rw [show (if ([] : List ℚ) = [] then d.sum else ([] : List ℚ).sum) =
        d.sum from rfl]
      constructor
      · intro h; rw [if_pos h]
      · intro h; rw [if_neg (not_lt.mpr h)]
    · have hlen : r.length = d.length ∨ r.length = d.length - 1 := by
        rcases hacc with h | h
        · exact absurd h hr
        · exact h
      rw [workRestRatio_accepted d r hd hr hlen]
      simp only [if_neg hr]
      constructor
      · intro h; rw [if_pos h]
      · intro h; rw [if_neg (not_lt.mpr h)]
  · rw [workRestRatio_no_rest [300, 300] (by simp)]
    norm_num [EPSILON]

/-- Witness for C5 at `durations = [300]`, `restDurations = [0]` (total
rest below `EPSILON`, hence `+infinity`). -/
theorem workRestRatio_values_witness :
    calculateWorkRestRatio [300] [0] = .ok .posInf := by
  refine (workRestRatio_values.1 [300] [0] (by simp)
    (Or.inr (Or.inl (by simp)))).1 ?_
  norm_num [EPSILON, List.cons_ne_nil]

/-- Claim C10: `calculateWorkRestRatio` never range-checks the rest
values: an accepted non-empty `restDurations` with negative sum falls
under the `totalRest < EPSILON` test and yields `+infinity`, never a
negative ratio. -/
theorem workRestRatio_negative_rest (d r : List ℚ) (hd : d ≠ [])
    (hr : r ≠ []) (hlen : r.length = d.length ∨ r.length = d.length - 1)
    (hsum : r.sum < 0) :
    calculateWorkRestRatio d r = .ok .posInf := by
  rw [workRestRatio_accepted d r hd hr hlen]
  rw [if_pos (lt_trans hsum (by norm_num [EPSILON]))]

/-- Witness for C10 at `durations = [300]`, `restDurations = [-5]`. -/
theorem workRestRatio_negative_rest_witness :
    calculateWorkRestRatio [300] [-5] = .ok .posInf :=
  workRestRatio_negative_rest [300] [-5] (by simp) (by simp)
    (Or.inl (by simp)) (by norm_num)

theorem firstBadDurationIdx_eq_none (l : List ℚ) (k : ℕ) :
    firstBadDurationIdx l k = none ↔
      ∀ d ∈ l, MIN_DURATION ≤ d ∧ d ≤ MAX_DURATION := by
  induction l generalizing k with
  | nil => simp [firstBadDurationIdx]
  | cons x xs ih =>
    unfold firstBadDurationIdx
    by_cases hx : x < MIN_DURATION ∨ MAX_DURATION < x
    · rw [if_pos hx]
      constructor
      · intro h; exact absurd h (by simp)
      · intro h
        have hx2 := h x (List.mem_cons_self x xs)
        rcases hx with h1 | h1
        · exact absurd hx2.1 (not_le.mpr h1)
        · exact absurd hx2.2 (not_le.mpr h1)
    · rw [if_neg hx]
      push_neg at hx
      rw [ih]
      constructor
      · intro h y hy
        rcases List.mem_cons.mp hy with rfl | hy2
        · exact ⟨hx.1, hx.2⟩
        · exact h y hy2
      · intro h y hy
        exact h y (List.mem_cons_of_mem x hy)

theorem firstBadDurationIdx_some (l : List ℚ) (k j : ℕ)
    (h : firstBadDurationIdx l k = some j) :
    ∃ m, ∃ hm : m < l.length, j = k + m ∧
      (l.get ⟨m, hm⟩ < MIN_DURATION ∨ MAX_DURATION < l.get ⟨m, hm⟩) := by
  induction l generalizing k with
  | nil => simp [firstBadDurationIdx] at h
  | cons x xs ih =>
    unfold firstBadDurationIdx at h
    split at h
    · next hx =>
      obtain rfl : k = j := by injection h
      exact ⟨0, by simp, by omega, hx⟩
    · next hx =>
      obtain ⟨m, hm, hj, hbad⟩ := ih (k + 1) h
      refine ⟨m + 1, by simpa using hm, by omega, ?_⟩
      exact hbad

theorem firstBadIntensityIdx_eq_none (l : List ℕ) (k : ℕ) :
    firstBadIntensityIdx l k = none ↔
      ∀ n ∈ l, MIN_INTENSITY ≤ n ∧ n ≤ MAX_INTENSITY := by
  induction l generalizing k with
  | nil => simp [firstBadIntensityIdx]
  | cons x xs ih =>
    unfold firstBadIntensityIdx
    by_cases hx : x < MIN_INTENSITY ∨ MAX_INTENSITY < x
    · rw [if_pos hx]
      constructor
      · intro h; exact absurd h (by simp)
      · intro h
        have hx2 := h x (List.mem_cons_self x xs)
        rcases hx with h1 | h1
        · exact absurd hx2.1 (not_le.mpr h1)
        · exact absurd hx2.2 (not_le.mpr h1)
    · rw [if_neg hx]
      push_neg at hx
      rw [ih]
      constructor
      · intro h y hy
        rcases List.mem_cons.mp hy with rfl | hy2
        · exact ⟨hx.1, hx.2⟩
        · exact h y hy2
      · intro h y hy
        exact h y (List.mem_cons_of_mem x hy)

theorem firstBadIntensityIdx_some (l : List ℕ) (k j : ℕ)
    (h : firstBadIntensityIdx l k = some j) :
    ∃ m, ∃ hm : m < l.length, j = k + m ∧
      (l.get ⟨m, hm⟩ < MIN_INTENSITY ∨ MAX_INTENSITY < l.get ⟨m, hm⟩) := by
  induction l generalizing k with
  | nil => simp [firstBadIntensityIdx] at h
  | cons x xs ih =>
    unfold firstBadIntensityIdx at h
    split at h
    · next hx =>
      obtain rfl : k = j := by injection h
      exact ⟨0, by simp, by omega, hx⟩
    · next hx =>
      obtain ⟨m, hm, hj, hbad⟩ := ih (k + 1) h
      refine ⟨m + 1, by simpa using hm, by omega, ?_⟩
      exact hbad

theorem validateInputs_ok_of_valid (d : List ℚ) (i : List ℕ)
    (hv : ValidInput d i) : validateInputs d i = .ok () := by
  obtain ⟨hlen, hd, hi⟩ := hv
  unfold validateInputs
  rw [if_neg (by omega), (firstBadDurationIdx_eq_none d 0).mpr hd,
    (firstBadIntensityIdx_eq_none i 0).mpr hi]

theorem analyze_eq_error_of_validate (d : List ℚ) (i : List ℕ)
    (r : List ℚ) (e : VErr) (hv : validateInputs d i = .error e) :
    analyze d i r = .error e := by
  unfold analyze
  rw [hv]

theorem analyze_eq_ok (d : List ℚ) (i : List ℕ) (r : List ℚ)
    (hv : validateInputs d i = .ok ()) (wr : WorkRest)
    (hw : calculateWorkRestRatio d r = .ok wr) :
    analyze d i r = .ok
      { totalActiveTime := calculateTotalActiveTime d
        workRestRatio := wr
        consistencyScore := calculateConsistencyScore d i
        trainingDensityScore := calculateTrainingDensityScore d i
        averageIntensity :=
          if i = [] then none
          else some ((i.map (fun n => (n : ℚ))).sum / (i.length : ℚ))
        totalWorkVolume := ((d.zip i).map (fun p => p.1 * (p.2 : ℚ))).sum
        totalSets := d.length } := by
  unfold analyze
  rw [hv, hw]

/-- Claim C2: `analyze` fails with a size-mismatch error when the lengths
differ; with equal lengths and an out-of-range duration or intensity it
fails with a range error carrying an offending index; the error is
exactly the one `validateInputs` raises, for every `restDurations`
(validation runs before any metric); and on valid input `validateInputs`
raises no error. -/
theorem analyze_validation (d : List ℚ) (i : List ℕ) (r : List ℚ) :
    (d.length ≠ i.length → analyze d i r = .error .sizeMismatch) ∧
    (d.length = i.length → ¬ValidInput d i →
      (∃ j, ∃ hj : j < d.length,
        analyze d i r = .error (.durationRange j) ∧
        (d.get ⟨j, hj⟩ < MIN_DURATION ∨ MAX_DURATION < d.get ⟨j, hj⟩)) ∨
      (∃ j, ∃ hj : j < i.length,
        analyze d i r = .error (.intensityRange j) ∧
        (i.get ⟨j, hj⟩ < MIN_INTENSITY ∨ MAX_INTENSITY < i.get ⟨j, hj⟩))) ∧
    (ValidInput d i → validateInputs d i = .ok ()) ∧
    (∀ e, validateInputs d i = .error e → analyze d i r = .error e) := by
  refine ⟨?_, ?_, validateInputs_ok_of_valid d i,
    fun e he => analyze_eq_error_of_validate d i r e he⟩
  · intro h
    apply analyze_eq_error_of_validate
    unfold validateInputs
    rw [if_pos h]
  · intro hlen hnv
    cases hbd : firstBadDurationIdx d 0 with
    | some k =>
      left
      obtain ⟨m, hm, hj, hbad⟩ := firstBadDurationIdx_some d 0 k hbd
      obtain rfl : k = m := by omega
      refine ⟨k, hm, ?_, hbad⟩
      apply analyze_eq_error_of_validate
      unfold validateInputs
      rw [if_neg (by omega), hbd]
    | none =>
      cases hbi : firstBadIntensityIdx i 0 with
      | some k =>
        right
        obtain ⟨m, hm, hj, hbad⟩ := firstBadIntensityIdx_some i 0 k hbi
        obtain rfl : k = m := by omega
        refine ⟨k, hm, ?_, hbad⟩
        apply analyze_eq_error_of_validate
        unfold validateInputs
        rw [if_neg (by omega), hbd, hbi]
      | none =>
        exact absurd ⟨hlen, (firstBadDurationIdx_eq_none d 0).mp hbd,
          (firstBadIntensityIdx_eq_none i 0).mp hbi⟩ hnv

/-- Witness for C2 at the mismatched input `[1, 2]` versus `[3]`. -/
theorem analyze_validation_witness :
    analyze [1, 2] [3] [] = .error .sizeMismatch :=
  (analyze_validation [1, 2] [3] []).1 (by simp)

theorem volume_bounds (d : List ℚ) (i : List ℕ) (hlen : d.length = i.length)
    (hd : ∀ x ∈ d, 0 ≤ x) (hi : ∀ n ∈ i, 1 ≤ n ∧ n ≤ 5) :
    d.sum ≤ ((d.zip i).map (fun p => p.1 * (p.2 : ℚ))).sum ∧
    ((d.zip i).map (fun p => p.1 * (p.2 : ℚ))).sum ≤ 5 * d.sum := by
  induction d generalizing i with
  | nil => simp
  | cons x xs ih =>
    cases i with
    | nil => simp at hlen
    | cons n ns =>
      have hx : (0 : ℚ) ≤ x := hd x (List.mem_cons_self x xs)
      have hn1 : (1 : ℚ) ≤ (n : ℚ) := by
        exact_mod_cast (hi n (List.mem_cons_self n ns)).1
      have hn5 : ((n : ℚ)) ≤ 5 := by
        exact_mod_cast (hi n (List.mem_cons_self n ns)).2
      have ihr := ih ns (by simpa using hlen)
        (fun y hy => hd y (List.mem_cons_of_mem x hy))
        (fun m hm => hi m (List.mem_cons_of_mem n hm))
      simp only [List.zip_cons_cons, List.map_cons, List.sum_cons]
      constructor
      · have h1 : x ≤ x * (n : ℚ) := le_mul_of_one_le_right hx hn1
        linarith [ihr.1]
      · have h2 : x * (n : ℚ) ≤ 5 * x := by nlinarith
        linarith [ihr.2]

/-- Claim C9: on every validated input accepted by `analyze`, the result
satisfies `totalActiveTime ≤ totalWorkVolume ≤ 5 * totalActiveTime`,
because every intensity weight lies in `[1, 5]`. -/
theorem analyze_volume_bounds (d : List ℚ) (i : List ℕ) (r : List ℚ)
    (res : AnalysisResult) (hv : ValidInput d i)
    (h : analyze d i r = .ok res) :
    res.totalActiveTime ≤ res.totalWorkVolume ∧
    res.totalWorkVolume ≤ 5 * res.totalActiveTime := by
  obtain ⟨hlen, hdur, hint⟩ := hv
  have hok : validateInputs d i = .ok () :=
    validateInputs_ok_of_valid d i ⟨hlen, hdur, hint⟩
  cases hw : calculateWorkRestRatio d r with
  | error e =>
    have he : analyze d i r = .error e := by
      unfold analyze
      rw [hok, hw]
    rw [he] at h
    exact absurd h (by simp)
  | ok wr =>
    rw [analyze_eq_ok d i r hok wr hw] at h
    injection h with h2
    rw [← h2]
    simp only
    rw [calculateTotalActiveTime_eq_sum]
    exact volume_bounds d i hlen (fun x hx => (hdur x hx).1)
      (fun n hn => hint n hn)

/-- Witness for C9 at the valid session `[300]`, `[3]`. -/
theorem analyze_volume_bounds_witness :
    sampleResult.totalActiveTime ≤ sampleResult.totalWorkVolume ∧
    sampleResult.totalWorkVolume ≤ 5 * sampleResult.totalActiveTime := by
  have hok : validateInputs [300] [3] = .ok () :=
    validateInputs_ok_of_valid _ _
      (by norm_num [ValidInput, MIN_DURATION, MAX_DURATION,
        MIN_INTENSITY, MAX_INTENSITY])
  have hw : calculateWorkRestRatio [300] [] = .ok (.fin 1) := by
    rw [workRestRatio_no_rest [300] (by simp)]
    norm_num [EPSILON]
  refine analyze_volume_bounds [300] [3] [] sampleResult
    (by norm_num [ValidInput, MIN_DURATION, MAX_DURATION,
      MIN_INTENSITY, MAX_INTENSITY]) ?_
  rw [analyze_eq_ok [300] [3] [] hok (.fin 1) hw]
  simp [sampleResult, calculateTotalActiveTime]
  norm_num

/-- Counterexample to C4 as stated: `analyze` on empty input computes
`averageIntensity` as `0.0 / 0.0`, which is IEEE `NaN` (modelled `none`),
not `0.0`. -/
theorem analyze_empty_avg_nan :
    (analyze [] [] []).map (fun res => res.averageIntensity) = .ok none ∧
    (Except.ok (none : Option ℚ) : Except VErr (Option ℚ)) ≠
      .ok (some 0) := by
  constructor
  · rfl
  · simp

/-- Claim C4 as amended: for empty durations and intensities, `analyze`
raises no error and returns `totalSets = 0`, `totalActiveTime = 0`,
`workRestRatio = 0`, `trainingDensityScore = 0`, `totalWorkVolume = 0`,
while `consistencyScore = 1` (the fewer-than-two-sets branch) and
`averageIntensity` is the IEEE `NaN` produced by `0.0 / 0.0` (modelled
`none`), not `0.0`. -/
theorem analyze_empty_result :
    (analyze [] [] []).map (fun res =>
      (res.totalActiveTime, res.workRestRatio, res.trainingDensityScore,
        res.totalWorkVolume, res.totalSets, res.averageIntensity)) =
      .ok (0, .fin 0, 0, 0, 0, none) ∧
    (analyze [] [] []).map (fun res => res.consistencyScore) = .ok 1 :=
  ⟨rfl, rfl⟩

/-- Counterexample to C8 as stated: on the scenario input the total work
volume is `180*2 + 240*3 + 300*5 + 240*4 + 180*2 = 3900`, not the `3620`
the claim asserts. -/
theorem analyze_scenario_volume_ne :
    (analyze [180, 240, 300, 240, 180] [2, 3, 5, 4, 2] []).map
      (fun res => res.totalWorkVolume) = .ok 3900 ∧
    (Except.ok (3900 : ℚ) : Except VErr ℚ) ≠ .ok 3620 := by
  have hok : validateInputs [180, 240, 300, 240, 180] [2, 3, 5, 4, 2] =
      .ok () :=
    validateInputs_ok_of_valid _ _
      (by norm_num [ValidInput, MIN_DURATION, MAX_DURATION,
        MIN_INTENSITY, MAX_INTENSITY])
  have hw : calculateWorkRestRatio [180, 240, 300, 240, 180] [] =
      .ok (.fin 1) := by
    rw [workRestRatio_no_rest _ (by simp)]
    norm_num [EPSILON]
  constructor
  · rw [analyze_eq_ok _ _ _ hok (.fin 1) hw]
    simp [Except.map]
    norm_num
  · simp

/-- Claim C8 as amended: `analyze` on `durations = [180,240,300,240,180]`,
`intensities = [2,3,5,4,2]` succeeds with `totalActiveTime = 1140`,
`averageIntensity = 16/5 = 3.2` and `totalWorkVolume = 3900` (the spec
figure `3620` is a miscalculated sum). -/
theorem analyze_scenario :
    (analyze [180, 240, 300, 240, 180] [2, 3, 5, 4, 2] []).map
      (fun res => (res.totalActiveTime, res.averageIntensity,
        res.totalWorkVolume)) = .ok (1140, some (16 / 5), 3900) := by
  have hok : validateInputs [180, 240, 300, 240, 180] [2, 3, 5, 4, 2] =
      .ok () :=
    validateInputs_ok_of_valid _ _
      (by norm_num [ValidInput, MIN_DURATION, MAX_DURATION,
        MIN_INTENSITY, MAX_INTENSITY])
  have hw : calculateWorkRestRatio [180, 240, 300, 240, 180] [] =
      .ok (.fin 1) := by
    rw [workRestRatio_no_rest _ (by simp)]
    norm_num [EPSILON]
  rw [analyze_eq_ok _ _ _ hok (.fin 1) hw]
  simp [Except.map, calculateTotalActiveTime]
  norm_num

end Tennis
